import Mathlib

/-!
# Verification of the blog pipeline scripts

Shallow embedding of the three Python scripts of this repository:
`blogspot_to_html.py` (Importer), `clean_blog_posts.py` (Post-Processor) and
`generate_blog_index.py` (Index Builder).

Python strings are modelled as `List Char` (the ASCII fragment of `str`,
which covers every string the scripts compare against).  Machine datetimes
are abstracted as `Nat` (only their order is ever used by the scripts);
`datetime.fromisoformat` and `datetime.now()` are passed in as parameters,
since the scripts use them as black boxes.
-/

/-- Python strings, modelled as lists of characters (ASCII fragment). -/
abbrev PyStr := List Char

/-- Python `str.lower()` (ASCII fragment: per-character lowercasing). -/
def pyLower (s : PyStr) : PyStr := s.map Char.toLower

/-- The `\s` class of Python `re`, which is also the default whitespace set
of `str.strip()` (ASCII fragment): space, tab, newline, CR, VT, FF. -/
def isPySpace (c : Char) : Bool :=
  c == ' ' || c == '\t' || c == '\n' || c == '\r' || c == '\x0b' || c == '\x0c'

/-- Is `p` a prefix of `s`? -/
def strStarts : PyStr → PyStr → Bool
  | [], _ => true
  | _ :: _, [] => false
  | p :: ps, c :: cs => p == c && strStarts ps cs

/-- Does `p` occur as a contiguous substring of `s`?  (Python `p in s`.) -/
def strHas (p : PyStr) : PyStr → Bool
  | [] => strStarts p []
  | c :: cs => strStarts p (c :: cs) || strHas p cs

/-- Python `str.strip()`: drop leading and trailing whitespace. -/
def pyStrip (s : PyStr) : PyStr :=
  ((s.dropWhile isPySpace).reverse.dropWhile isPySpace).reverse

/-!
## Importer: `blogspot_to_html.py`
-/

/-- The `\w` class of Python `re` (ASCII fragment): letters, digits, underscore. -/
def isWordCharPy (c : Char) : Bool := c.isAlphanum || c == '_'

/-- A character matched by the class `[-\s]` of `re.sub(r'[-\s]+', '-', _)`. -/
def isHyphenSpace (c : Char) : Bool := c == '-' || isPySpace c

/-- Helper for `re.sub(r'[-\s]+', '-', s)`: the flag records whether the
previous character belonged to a hyphen/whitespace run already replaced. -/
def collapseAux : Bool → PyStr → PyStr
  | _, [] => []
  | inRun, c :: rest =>
    if isHyphenSpace c then
      if inRun then collapseAux true rest else '-' :: collapseAux true rest
    else c :: collapseAux false rest

/-- `re.sub(r'[-\s]+', '-', s)`: each maximal run of hyphens and whitespace
characters is replaced by a single hyphen. -/
def collapseRuns (s : PyStr) : PyStr := collapseAux false s

/-- `clean_filename` of `blogspot_to_html.py`: lowercase, drop every character
outside `[\w\s-]`, collapse hyphen/whitespace runs to one hyphen, keep the
first 100 characters. -/
def clean_filename (title : PyStr) : PyStr :=
  let filename := (pyLower title).filter
    (fun c => isWordCharPy c || isPySpace c || c == '-')
  (collapseRuns filename).take 100

/-- The `excluded_categories` list of `should_exclude_post`. -/
def excludedCategories : List PyStr :=
  [("ai ethics & law").data, ("ai ethics").data, ("law").data]

/-- `should_exclude_post` of `blogspot_to_html.py`: some label, lowercased,
contains one of the excluded substrings. -/
def should_exclude_post (labels : List PyStr) : Bool :=
  labels.any (fun label => excludedCategories.any (fun ex => strHas ex (pyLower label)))

/-- `published_elem.text.replace('Z', '+00:00')`: Python `str.replace`
substitutes every occurrence; for a one-character needle this is
character-wise. -/
def normalizeTimestamp (s : PyStr) : PyStr :=
  s.flatMap (fun c => if c = 'Z' then ("+00:00").data else [c])

/-- The date chosen for a post record: parse the normalized timestamp when
the `atom:published` element is present, else `datetime.now()` (`now`). -/
def postDateOf (parseIso : PyStr → Nat) (now : Nat) : Option PyStr → Nat
  | some s => parseIso (normalizeTimestamp s)
  | none => now

/-- One `atom:entry` of the feed, with the fields the Importer reads.
`none` models an absent element (or an absent text payload). -/
structure Entry where
  postType : Option PyStr
  status : Option PyStr
  terms : List PyStr
  title : Option PyStr
  published : Option PyStr
  content : Option PyStr
  filename : Option PyStr
deriving DecidableEq

/-- A post record as built by `parse_blogspot_xml`. -/
structure Post where
  title : PyStr
  date : Nat
  content : PyStr
  labels : List PyStr
  url : PyStr
deriving DecidableEq

/-- The label-collection loop: keep each nonempty `term` attribute. -/
def collectLabels (terms : List PyStr) : List PyStr :=
  terms.filter (fun t => !t.isEmpty)

/-- The fixed host prefixed to the `blogger:filename` hint. -/
def blogHost : PyStr := ("https://cheonkamjeong.blogspot.com").data

/-- The per-entry body of the loop in `parse_blogspot_xml`: `none` when the
entry is skipped (`continue`), `some` record otherwise. -/
def processEntry (now : Nat) (parseIso : PyStr → Nat) (e : Entry) : Option Post :=
  if e.postType ≠ some ("POST").data then none
  else if e.status ≠ some ("LIVE").data then none
  else
    let labels := collectLabels e.terms
    if should_exclude_post labels then none
    else some {
      title := e.title.getD ("Untitled").data
      date := postDateOf parseIso now e.published
      content := e.content.getD []
      labels := labels
      url := match e.filename with
             | some f => if !f.isEmpty then blogHost ++ f else []
             | none => [] }

/-- `parse_blogspot_xml`: process every entry, then sort the records by date,
newest first (Python's stable sort with `reverse=True`). -/
def parse_blogspot_xml (now : Nat) (parseIso : PyStr → Nat)
    (entries : List Entry) : List Post :=
  List.insertionSort (fun a b => b.date ≤ a.date)
    (entries.filterMap (processEntry now parseIso))

/-- The filenames written by `generate_blog_files`: one per post record. -/
def generate_filenames (posts : List Post) : List PyStr :=
  posts.map (fun p => clean_filename p.title ++ (".html").data)

/-!
## Post-Processor: `clean_blog_posts.py`
-/

/-- Split `s` at the first occurrence of `pat`: `some (pre, post)` with
`s = pre ++ pat ++ post` and no occurrence of `pat` starting inside `pre`;
`none` when `pat` does not occur. -/
def splitFirst (pat : PyStr) : PyStr → Option (PyStr × PyStr)
  | [] => if strStarts pat [] then some ([], []) else none
  | c :: rest =>
    if strStarts pat (c :: rest) then some ([], (c :: rest).drop pat.length)
    else
      match splitFirst pat rest with
      | some (pre, post) => some (c :: pre, post)
      | none => none

/-- `clean_title` of `clean_blog_posts.py`:
`re.sub(r'^\[.*?\]\s*', '', title).strip()`.  The anchored lazy pattern
matches exactly when the title starts with `[` and a `]` follows with no
newline in between (`.` does not cross newlines); the match extends to the
first such `]` plus any following whitespace. -/
def clean_title (t : PyStr) : PyStr :=
  match t with
  | [] => pyStrip []
  | c :: rest =>
    if c = '[' then
      match splitFirst ([']']) rest with
      | some (inner, after) =>
          if '\n' ∈ inner then pyStrip (c :: rest)
          else pyStrip (after.dropWhile isPySpace)
      | none => pyStrip (c :: rest)
    else pyStrip (c :: rest)

/-- The whole-document guard of `clean_html_formatting`:
`'<img' in content or '<figure' in content`. -/
def hasImages (content : PyStr) : Bool :=
  strHas (("<img").data) content || strHas (("<figure").data) content

/-- One pass of `re.sub('<tag>(.*?)</tag>', r'\1', s, flags=re.DOTALL)`:
scan left to right; at each position where `opn` matches and `cls` occurs
later, emit the (unrescanned) inner text and resume after `cls`.  Fuel-driven
so that the function reduces by evaluation; `stripPair` supplies enough fuel. -/
def stripPairF (opn cls : PyStr) : Nat → PyStr → PyStr
  | 0, s => s
  | _ + 1, [] => []
  | fuel + 1, c :: rest =>
    if strStarts opn (c :: rest) then
      match splitFirst cls ((c :: rest).drop opn.length) with
      | some (inner, after) => inner ++ stripPairF opn cls fuel after
      | none => c :: stripPairF opn cls fuel rest
    else c :: stripPairF opn cls fuel rest

/-- `re.sub('<tag>(.*?)</tag>', r'\1', s, flags=re.DOTALL)` (the list shrinks
at every step, so `s.length` is always enough fuel). -/
def stripPair (opn cls s : PyStr) : PyStr := stripPairF opn cls s.length s

/-- `clean_html_formatting` of `clean_blog_posts.py`: identity when any
image/figure markup occurs anywhere, else the four emphasis-stripping
substitutions in source order. -/
def clean_html_formatting (content : PyStr) : PyStr :=
  if hasImages content then content
  else
    let c1 := stripPair (("<strong>").data) (("</strong>").data) content
    let c2 := stripPair (("<em>").data) (("</em>").data) c1
    let c3 := stripPair (("<b>").data) (("</b>").data) c2
    stripPair (("<i>").data) (("</i>").data) c3

/-!
## Index Builder: `generate_blog_index.py`
-/

/-- The month names recognised by `%B` (strptime matches case-insensitively
against the locale's month names; the C locale gives these). -/
def monthNames : List (PyStr × Nat) :=
  [(("january").data, 1), (("february").data, 2), (("march").data, 3),
   (("april").data, 4), (("may").data, 5), (("june").data, 6),
   (("july").data, 7), (("august").data, 8), (("september").data, 9),
   (("october").data, 10), (("november").data, 11), (("december").data, 12)]

/-- Gregorian leap year, as `calendar.isleap` / `datetime` use it. -/
def isLeapYear (y : Nat) : Bool := y % 4 == 0 && (y % 100 != 0 || y % 400 == 0)

/-- Days in a month, as validated by the `datetime` constructor. -/
def daysInMonth (y m : Nat) : Nat :=
  if m = 2 then (if isLeapYear y then 29 else 28)
  else if m = 4 ∨ m = 6 ∨ m = 9 ∨ m = 11 then 30
  else 31

/-- Numeric value of a digit character. -/
def digitVal (c : Char) : Nat := c.toNat - '0'.toNat

/-- The `%d` directive: the regex `3[01]|[12]\d|0[1-9]|[1-9]`, i.e. one or
two digits with value 1..31 (a two-digit match whose follow-up fails cannot
be rescued by backtracking to one digit, since the second digit can never
match the literal comma that must follow). -/
def readDay : PyStr → Option (Nat × PyStr)
  | [] => none
  | d1 :: rest1 =>
    match rest1 with
    | d2 :: rest2 =>
      if d1.isDigit ∧ d2.isDigit ∧ 1 ≤ digitVal d1 * 10 + digitVal d2
          ∧ digitVal d1 * 10 + digitVal d2 ≤ 31 then
        some (digitVal d1 * 10 + digitVal d2, rest2)
      else if d1.isDigit ∧ 1 ≤ digitVal d1 then some (digitVal d1, rest1)
      else none
    | [] => if d1.isDigit ∧ 1 ≤ digitVal d1 then some (digitVal d1, []) else none

/-- The `%Y` directive: exactly four digits, which must end the string
(`strptime` rejects unconverted trailing data). -/
def readYear4 : PyStr → Option Nat
  | [y1, y2, y3, y4] =>
    if y1.isDigit ∧ y2.isDigit ∧ y3.isDigit ∧ y4.isDigit then
      some (((digitVal y1 * 10 + digitVal y2) * 10 + digitVal y3) * 10 + digitVal y4)
    else none
  | _ => none

/-- The range checks of the `datetime` constructor: year ≥ 1, month 1..12,
day 1..days-in-month (`strptime` raises on violation, caught by the script's
bare `except`). -/
def ctorCheck (y m d : Nat) : Option (Nat × Nat × Nat) :=
  if 1 ≤ y ∧ 1 ≤ m ∧ m ≤ 12 ∧ 1 ≤ d ∧ d ≤ daysInMonth y m then some (y, m, d)
  else none

/-- The `", %Y"` tail of the format: a literal comma, whitespace (`\s+`),
exactly four digits (`%Y`), end of string; then the constructor checks. -/
def parseDateRest (m day : Nat) (r : PyStr) : Option (Nat × Nat × Nat) :=
  match r with
  | [] => none
  | c :: r3 =>
    if c = ',' then
      if (r3.dropWhile isPySpace).length = r3.length then none
      else
        match readYear4 (r3.dropWhile isPySpace) with
        | some y => ctorCheck y m day
        | none => none
    else none

/-- The `%B` directive: the (lowercased) input must start with a month name. -/
def parseMonthPrefix (s : PyStr) : Option (Nat × PyStr) :=
  monthNames.findSome?
    (fun p => if strStarts p.1 s then some (p.2, s.drop p.1.length) else none)

/-- `datetime.strptime(s, "%B %d, %Y")` as `(year, month, day)`; `none` on
any match or constructor failure.  strptime lowercases the input before
matching, whitespace in the format matches `\s+`, and the whole string must
be consumed. -/
def parseDateOpt (s0 : PyStr) : Option (Nat × Nat × Nat) :=
  match parseMonthPrefix (pyLower s0) with
  | none => none
  | some (m, r1) =>
    if (r1.dropWhile isPySpace).length = r1.length then none
    else
      match readDay (r1.dropWhile isPySpace) with
      | none => none
      | some (day, r3) => parseDateRest m day r3

/-- `parse_date` of `categorize_posts`, as a sort key: the parsed date when
`strptime` succeeds, else `datetime.min` (i.e. `datetime(1, 1, 1)`).  Dates
are encoded order-preservingly as `y * 10000 + m * 100 + d`. -/
def parse_date_key (s : PyStr) : Nat :=
  match parseDateOpt s with
  | some (y, m, d) => y * 10000 + m * 100 + d
  | none => 10101

/-- The metadata extracted from one scanned HTML file. -/
structure ScanMeta where
  filename : PyStr
  title : PyStr
  date : PyStr
  preview : PyStr
  categories : List PyStr
deriving DecidableEq

/-- The `post_info` dict appended to `all_posts` and to each category
bucket (it does not carry the category list). -/
structure PostInfo where
  filename : PyStr
  title : PyStr
  date : PyStr
  preview : PyStr
deriving DecidableEq

/-- Build a `post_info` from a scanned file's metadata. -/
def postInfoOf (m : ScanMeta) : PostInfo :=
  { filename := m.filename, title := m.title, date := m.date, preview := m.preview }

/-- `category.lower().replace(' ', '-')`. -/
def slugify (c : PyStr) : PyStr :=
  (pyLower c).map (fun ch => if ch = ' ' then '-' else ch)

/-- The accumulation `posts_by_category[cat_key].append(post_info)` of
`categorize_posts`, read off for one slug: posts in scan order, one copy per
category of the post whose slug equals `slug`. -/
def postsByCategory (posts : List ScanMeta) (slug : PyStr) : List PostInfo :=
  posts.flatMap (fun m =>
    (m.categories.filter (fun c => slugify c == slug)).map (fun _ => postInfoOf m))

/-- `posts.sort(key=lambda x: parse_date(x['date']), reverse=True)`:
Python's stable sort, descending by parsed date. -/
def sortPostsByDate (posts : List PostInfo) : List PostInfo :=
  List.insertionSort (fun a b => parse_date_key b.date ≤ parse_date_key a.date) posts

/-- The post list rendered on the category page for `slug` in `main`. -/
def categoryPage (posts : List ScanMeta) (slug : PyStr) : List PostInfo :=
  sortPostsByDate (postsByCategory posts slug)

/-!
## Spec-described variants (for refinement claims C3 and C8)

These two definitions follow the words of the specification, to be compared
with the source-derived definitions above.
-/

/-- The filename cleaning as the spec's words describe it: strip every
character that is not a letter, digit, whitespace, or hyphen (note: no
underscore), collapse runs, truncate to 100. -/
def specCleanFilename (title : PyStr) : PyStr :=
  let filtered := (pyLower title).filter
    (fun c => c.isAlpha || c.isDigit || isPySpace c || c == '-')
  (collapseRuns filtered).take 100

/-- The timestamp normalization as the spec's words describe it: replace a
trailing literal `Z` with `+00:00`; every other character is passed through
unchanged. -/
def specNormalizeTimestamp (s : PyStr) : PyStr :=
  if s.getLast? = some 'Z' then s.dropLast ++ ("+00:00").data else s

/-!
## Helper lemmas
-/

theorem splitFirst_single_notMem (x : Char) (r : PyStr) :
    ∀ (a : PyStr), x ∉ a → splitFirst [x] (a ++ x :: r) = some (a, r) := by
  intro a
  induction a with
  | nil => intro _; simp [splitFirst, strStarts]
  | cons c a' ih =>
    intro h
    have hxc : ¬((x == c) = true) := by
      simp only [beq_iff_eq]
      intro hh
      exact h (by simp [hh])
    have ihh := ih (fun hm => h (List.mem_cons_of_mem _ hm))
    have hstep : strStarts [x] (c :: (a' ++ x :: r)) = false := by
      simp [strStarts, hxc]
    rw [List.cons_append, splitFirst, hstep]
    simp only [Bool.false_eq_true, if_false, ihh]

theorem mem_collapseAux : ∀ (b : Bool) (s : PyStr) (c : Char),
    c ∈ collapseAux b s → c = '-' ∨ (c ∈ s ∧ isHyphenSpace c = false) := by
  intro b s
  induction s generalizing b with
  | nil => intro c hc; simp [collapseAux] at hc
  | cons x xs ih =>
    intro c hc
    by_cases hx : isHyphenSpace x = true
    · cases b with
      | true =>
        simp only [collapseAux, hx, if_true] at hc
        rcases ih true c hc with h | ⟨h1, h2⟩
        · exact Or.inl h
        · exact Or.inr ⟨List.mem_cons_of_mem _ h1, h2⟩
      | false =>
        simp only [collapseAux, hx, if_true] at hc
        rcases List.mem_cons.1 hc with h | h
        · exact Or.inl h
        · rcases ih true c h with h' | ⟨h1, h2⟩
          · exact Or.inl h'
          · exact Or.inr ⟨List.mem_cons_of_mem _ h1, h2⟩
    · simp only [collapseAux, hx, if_false, Bool.not_eq_true] at hc
      rcases List.mem_cons.1 hc with h | h
      · subst h
        exact Or.inr ⟨List.mem_cons_self _ _, Bool.not_eq_true _ ▸ hx⟩
      · rcases ih false c h with h' | ⟨h1, h2⟩
        · exact Or.inl h'
        · exact Or.inr ⟨List.mem_cons_of_mem _ h1, h2⟩

theorem normalizeTimestamp_eq_spec_of_no_inner :
    ∀ (s : PyStr), 'Z' ∉ s.dropLast →
      normalizeTimestamp s = specNormalizeTimestamp s := by
  intro s
  induction s with
  | nil => intro _; simp [normalizeTimestamp, specNormalizeTimestamp]
  | cons c t ih =>
    intro h
    cases t with
    | nil =>
      by_cases hc : c = 'Z' <;>
        simp [normalizeTimestamp, specNormalizeTimestamp, hc]
    | cons d t' =>
      rw [List.dropLast_cons₂] at h
      have hc : c ≠ 'Z' := fun hh => h (by simp [hh])
      have h' : 'Z' ∉ (d :: t').dropLast := fun hm => h (List.mem_cons_of_mem _ hm)
      have ihh := ih h'
      have hstep : normalizeTimestamp (c :: d :: t') = c :: normalizeTimestamp (d :: t') := by
        simp [normalizeTimestamp, hc]
      rw [hstep, ihh]
      by_cases hz : (d :: t').getLast? = some 'Z'
      · simp [specNormalizeTimestamp, hz, List.getLast?_cons_cons, List.dropLast_cons₂]
      · simp [specNormalizeTimestamp, hz, List.getLast?_cons_cons]

theorem mem_postsByCategory {posts : List ScanMeta} {slug : PyStr} {p : PostInfo} :
    p ∈ postsByCategory posts slug ↔
      ∃ m, m ∈ posts ∧ postInfoOf m = p ∧ ∃ c, c ∈ m.categories ∧ slugify c = slug := by
  simp only [postsByCategory, List.mem_flatMap, List.mem_map, List.mem_filter,
    beq_iff_eq]
  constructor
  · rintro ⟨m, hm, c, ⟨hc, hs⟩, hp⟩
    exact ⟨m, hm, hp, c, hc, hs⟩
  · rintro ⟨m, hm, hp, c, hc, hs⟩
    exact ⟨m, hm, c, ⟨hc, hs⟩, hp⟩

theorem count_postsByCategory :
    ∀ (posts : List ScanMeta) (m : ScanMeta) (slug : PyStr),
      posts.Pairwise (fun a b => a.filename ≠ b.filename) → m ∈ posts →
      List.count (postInfoOf m) (postsByCategory posts slug)
        = m.categories.countP (fun c => slugify c == slug) := by
  intro posts
  induction posts with
  | nil => intro m slug _ hm; cases hm
  | cons q rest ih =>
    intro m slug hp hm
    rw [List.pairwise_cons] at hp
    rw [postsByCategory, List.flatMap_cons, List.count_append,
      List.map_const', List.count_replicate]
    rcases List.mem_cons.1 hm with rfl | hm'
    · have hzero :
          List.count (postInfoOf m) (postsByCategory rest slug) = 0 := by
        rw [List.count_eq_zero]
        intro hmem
        rcases mem_postsByCategory.1 hmem with ⟨m', hm', hpi, _⟩
        exact hp.1 m' hm' (congrArg PostInfo.filename hpi.symm)
      rw [postsByCategory] at hzero
      simp only [beq_self_eq_true, if_true, hzero, Nat.add_zero,
        List.countP_eq_length_filter]
    · have hne : ¬((postInfoOf q == postInfoOf m) = true) := by
        simp only [beq_iff_eq]
        intro hh
        exact hp.1 m hm' (congrArg PostInfo.filename hh)
      have ihh := ih m slug hp.2 hm'
      rw [postsByCategory] at ihh
      simp only [List.map_const'] at ihh
      simp [hne, ihh]

theorem ctorCheck_bounds {y m d y' m' d' : Nat}
    (h : ctorCheck y m d = some (y', m', d')) : 1 ≤ y' ∧ 1 ≤ m' ∧ 1 ≤ d' := by
  unfold ctorCheck at h
  split_ifs at h with hg
  simp only [Option.some.injEq, Prod.mk.injEq] at h
  obtain ⟨h1, h2, h3⟩ := h
  subst h1; subst h2; subst h3
  exact ⟨hg.1, hg.2.1, hg.2.2.2.1⟩

theorem parseDateRest_bounds {m day : Nat} {r : PyStr} {y' m' d' : Nat}
    (h : parseDateRest m day r = some (y', m', d')) : 1 ≤ y' ∧ 1 ≤ m' ∧ 1 ≤ d' := by
  unfold parseDateRest at h
  split at h
  · exact absurd h (by simp)
  · split at h
    · split at h
      · exact absurd h (by simp)
      · split at h
        · exact ctorCheck_bounds h
        · exact absurd h (by simp)
    · exact absurd h (by simp)

theorem parseDateOpt_bounds {s : PyStr} {y' m' d' : Nat}
    (h : parseDateOpt s = some (y', m', d')) : 1 ≤ y' ∧ 1 ≤ m' ∧ 1 ≤ d' := by
  unfold parseDateOpt at h
  split at h
  · exact absurd h (by simp)
  · split at h
    · exact absurd h (by simp)
    · split at h
      · exact absurd h (by simp)
      · exact parseDateRest_bounds h

theorem parse_date_key_min (s : PyStr) : 10101 ≤ parse_date_key s := by
  unfold parse_date_key
  split
  · next y m d heq =>
    obtain ⟨hy, hm, hd⟩ := parseDateOpt_bounds heq
    omega
  · exact Nat.le_refl _

/-!
## Claims
-/

/-- An entry whose type and status markers pass the post/published checks but
which carries the excluded label "Law". -/
def lawEntry : Entry :=
  { postType := some (("POST").data), status := some (("LIVE").data),
    terms := [("Law").data], title := none, published := none,
    content := none, filename := none }

/-- Claim C1, counterexample: for `lawEntry` the type marker is the post
marker and the status marker is the published marker, yet `processEntry`
produces no record (the label filter also decides), so record production is
not an if-and-only-if on type and status alone. -/
theorem C1_counterexample :
    ¬ (((processEntry 0 (fun _ => 0) lawEntry).isSome = true) ↔
       (lawEntry.postType = some (("POST").data) ∧
        lawEntry.status = some (("LIVE").data))) := by
  decide

/-- Claim C1 as amended: a post record is produced if and only if the type
marker equals the post marker `POST`, the status marker equals the published
marker `LIVE`, and no collected label matches the exclusion list; any other
combination of type and status yields zero records. -/
theorem C1_amended_eligibility (e : Entry) (now : Nat) (parseIso : PyStr → Nat) :
    (processEntry now parseIso e).isSome =
      ((e.postType == some (("POST").data)) && (e.status == some (("LIVE").data))
        && !should_exclude_post (collectLabels e.terms)) := by
  unfold processEntry
  split_ifs with h1 h2
  · simp_all
  · simp_all
  · push_neg at h1 h2
    by_cases h3 : should_exclude_post (collectLabels e.terms) = true <;>
      simp [h1, h2, h3]

/-- Claim C2: an entry one of whose label terms case-insensitively contains
an excluded substring yields no post record, and the pipeline writes no file
for it, regardless of its other labels and fields. -/
theorem C2_label_exclusion (e : Entry) (now : Nat) (parseIso : PyStr → Nat)
    (label : PyStr) (hmem : label ∈ e.terms)
    (hex : excludedCategories.any (fun ex => strHas ex (pyLower label)) = true) :
    processEntry now parseIso e = none ∧
      generate_filenames (parse_blogspot_xml now parseIso [e]) = [] := by
  have hlabel : ¬label.isEmpty := by
    intro hemp
    rw [List.isEmpty_iff] at hemp
    subst hemp
    exact absurd hex (by decide)
  have hcoll : label ∈ collectLabels e.terms :=
    List.mem_filter.2 ⟨hmem, by simpa using hlabel⟩
  have hexc : should_exclude_post (collectLabels e.terms) = true :=
    List.any_eq_true.2 ⟨label, hcoll, hex⟩
  have hnone : processEntry now parseIso e = none := by
    unfold processEntry
    split_ifs with h1 h2
    · rfl
    · rfl
    · simp [hexc]
  refine ⟨hnone, ?_⟩
  simp [parse_blogspot_xml, List.filterMap_cons, hnone, generate_filenames,
    List.insertionSort]

/-- An eligible entry carrying the label "Law" next to an innocent one. -/
def lawEntryW : Entry :=
  { postType := some (("POST").data), status := some (("LIVE").data),
    terms := [("Law").data, ("NLP").data], title := some (("T").data),
    published := none, content := none, filename := none }

/-- Witness for C2 at a concrete entry. -/
theorem C2_label_exclusion_witness :
    processEntry 0 (fun _ => 0) lawEntryW = none ∧
      generate_filenames (parse_blogspot_xml 0 (fun _ => 0) [lawEntryW]) = [] :=
  C2_label_exclusion lawEntryW 0 (fun _ => 0) (("Law").data) (by decide) (by decide)

/-- Claim C3, counterexample: the code keeps `\w` characters, which include
the underscore, so `clean_filename "a_b"` is `"a_b"`, while the claim's
description (strip everything that is not a letter, digit, whitespace or
hyphen) would give `"ab"`. -/
theorem C3_counterexample :
    clean_filename (("a_b").data) = ("a_b").data ∧
      specCleanFilename (("a_b").data) = ("ab").data ∧
      clean_filename (("a_b").data) ≠ specCleanFilename (("a_b").data) := by
  decide

/-- Claim C3 as amended: `clean_filename` lowercases, strips every character
that is not a word character (letter, digit, or underscore), whitespace, or
hyphen, collapses hyphen/whitespace runs to one hyphen and truncates to 100
characters: the stated examples hold, a title of only excluded characters
yields the empty string, every output character is a word character or a
hyphen, and the output never exceeds 100 characters. -/
theorem C3_amended_filename :
    clean_filename (("Hello, World!").data) = ("hello-world").data ∧
    clean_filename ([] : PyStr) = [] ∧
    clean_filename (("a_b").data) = ("a_b").data ∧
    (∀ t : PyStr,
      (∀ c ∈ t,
        (isWordCharPy c.toLower || isPySpace c.toLower || (c.toLower == '-')) = false) →
      clean_filename t = []) ∧
    (∀ t : PyStr, ∀ c ∈ clean_filename t, isWordCharPy c = true ∨ c = '-') ∧
    (∀ t : PyStr, (clean_filename t).length ≤ 100) := by
  refine ⟨by decide, by decide, by decide, ?_, ?_, ?_⟩
  · intro t h
    have hfil : (pyLower t).filter
        (fun c => isWordCharPy c || isPySpace c || c == '-') = [] := by
      rw [List.filter_eq_nil_iff]
      intro a ha
      rcases List.mem_map.1 ha with ⟨c, hc, rfl⟩
      simp [h c hc]
    simp only [clean_filename, hfil]
    rfl
  · intro t c hc
    simp only [clean_filename] at hc
    have h1 := List.mem_of_mem_take hc
    rcases mem_collapseAux false _ c h1 with h2 | ⟨h3, h4⟩
    · exact Or.inr h2
    · have hkeep := (List.mem_filter.1 h3).2
      simp only [isHyphenSpace, Bool.or_eq_false_iff] at h4
      simp only [h4.1, h4.2, Bool.or_false] at hkeep
      exact Or.inl hkeep
  · intro t
    simp only [clean_filename]
    exact List.length_take_le _ _

/-- Witness for the amended C3: a title of only excluded characters maps to
the empty string. -/
theorem C3_amended_filename_witness : clean_filename (("!!!").data) = [] :=
  C3_amended_filename.2.2.2.1 (("!!!").data) (by decide)

/-- A scanned post whose extracted category list carries "NLP" twice. -/
def dupCatScan : ScanMeta :=
  { filename := ("a.html").data, title := ("T").data,
    date := ("March 1, 2024").data, preview := [],
    categories := [("NLP").data, ("NLP").data] }

/-- Claim C4, counterexample: `dupCatScan` has the slug "nlp" among its
extracted categories, yet it appears twice on the generated "nlp" category
page (the loop appends once per matching category), not exactly once. -/
theorem C4_counterexample :
    (("nlp").data ∈ dupCatScan.categories.map slugify) ∧
      List.count (postInfoOf dupCatScan)
        (categoryPage [dupCatScan] (("nlp").data)) = 2 := by
  decide

/-- Claim C4 as amended: every post on a generated category page has that
page's slug among its extracted categories' slugs; and (for scanned posts
with pairwise distinct filenames) each scanned post appears on the page once
per extracted category whose slug equals the page's slug — so exactly once
precisely when exactly one of its categories maps to that slug. -/
theorem C4_amended_membership (posts : List ScanMeta) (slug : PyStr) :
    (∀ p : PostInfo, p ∈ categoryPage posts slug →
       ∃ m, m ∈ posts ∧ postInfoOf m = p ∧ slug ∈ m.categories.map slugify) ∧
    (posts.Pairwise (fun a b => a.filename ≠ b.filename) →
       ∀ m ∈ posts,
         List.count (postInfoOf m) (categoryPage posts slug)
           = m.categories.countP (fun c => slugify c == slug)) := by
  constructor
  · intro p hp
    unfold categoryPage sortPostsByDate at hp
    have hp' : p ∈ postsByCategory posts slug :=
      (List.perm_insertionSort _ _).mem_iff.1 hp
    rcases mem_postsByCategory.1 hp' with ⟨m, hm, hpi, c, hc, hs⟩
    exact ⟨m, hm, hpi, List.mem_map.2 ⟨c, hc, hs⟩⟩
  · intro hpw m hm
    unfold categoryPage sortPostsByDate
    rw [List.Perm.count_eq (List.perm_insertionSort _ _)]
    exact count_postsByCategory posts m slug hpw hm

/-- A scanned post in the "nlp" category. -/
def scanA : ScanMeta :=
  { filename := ("a.html").data, title := ("A").data,
    date := ("March 1, 2024").data, preview := [],
    categories := [("NLP").data] }

/-- A scanned post in another category. -/
def scanB : ScanMeta :=
  { filename := ("b.html").data, title := ("B").data,
    date := ("March 2, 2024").data, preview := [],
    categories := [("Research").data] }

/-- Witness for the amended C4 at two concrete scanned posts. -/
theorem C4_amended_membership_witness :
    List.count (postInfoOf scanA) (categoryPage [scanA, scanB] (("nlp").data))
      = scanA.categories.countP (fun c => slugify c == ("nlp").data) :=
  (C4_amended_membership [scanA, scanB] (("nlp").data)).2 (by decide) scanA (by decide)

/-- Claim C5, counterexample: with no image present, one pass over nested
same-tag pairs leaves a residual pair: the claim's full removal would leave
only the inner text "x", but the code yields "<b>x</b>". -/
theorem C5_counterexample :
    hasImages (("<b><b>x</b></b>").data) = false ∧
      clean_html_formatting (("<b><b>x</b></b>").data) = ("<b>x</b>").data ∧
      clean_html_formatting (("<b><b>x</b></b>").data) ≠ ("x").data := by
  decide

/-- Claim C5 as amended: when any image or figure markup occurs anywhere in
the document the simplification is the identity; when none occurs, each
leftmost non-greedy matched strong/em/b/i pair is removed with its inner
text preserved (removing every pair when no same-tag pairs are nested),
while nested same-tag pairs may leave one residual pair per pass. -/
theorem C5_amended_formatting :
    (∀ content : PyStr, hasImages content = true →
        clean_html_formatting content = content) ∧
    clean_html_formatting
        (("<p><strong>A</strong> and <em>B</em>, <b>C</b>, <i>D</i></p>").data)
      = ("<p>A and B, C, D</p>").data ∧
    clean_html_formatting (("<b><b>x</b></b>").data) = ("<b>x</b>").data := by
  refine ⟨?_, by decide, by decide⟩
  intro content h
  simp [clean_html_formatting, h]

/-- Witness for the amended C5: an image anywhere leaves a strong pair in an
unrelated region untouched. -/
theorem C5_amended_formatting_witness :
    clean_html_formatting (("<img src=x> and <strong>S</strong>").data)
      = ("<img src=x> and <strong>S</strong>").data :=
  C5_amended_formatting.1 (("<img src=x> and <strong>S</strong>").data) (by decide)

/-- Claim C6: the Post-Processor's title cleanup maps the stated heading to
"Understanding Transformers", and leaves any (already stripped) heading that
does not start with `[` unchanged. -/
theorem C6_title_strip :
    clean_title (("[Paper Review - NLP] Understanding Transformers").data)
      = ("Understanding Transformers").data ∧
    ∀ t : PyStr, pyStrip t = t → t.head? ≠ some '[' → clean_title t = t := by
  refine ⟨by decide, ?_⟩
  intro t hstrip hhead
  cases t with
  | nil => simp [clean_title, pyStrip]
  | cons c cs =>
    have hc : c ≠ '[' := fun hh => hhead (by simp [hh])
    simp only [clean_title, if_neg hc]
    exact hstrip

/-- Witness for C6 at a concrete bracket-free heading. -/
theorem C6_title_strip_witness :
    clean_title (("Understanding Transformers").data)
      = ("Understanding Transformers").data :=
  C6_title_strip.2 (("Understanding Transformers").data) (by decide) (by decide)

/-- A scanned post dated "March 1, 2024". -/
def postMar1 : PostInfo :=
  { filename := ("p1.html").data, title := ("P1").data,
    date := ("March 1, 2024").data, preview := [] }

/-- A scanned post with an unparsable display date. -/
def postBadDate : PostInfo :=
  { filename := ("p2.html").data, title := ("P2").data,
    date := ("not-a-date").data, preview := [] }

/-- A scanned post dated "March 2, 2024". -/
def postMar2 : PostInfo :=
  { filename := ("p3.html").data, title := ("P3").data,
    date := ("March 2, 2024").data, preview := [] }

/-- Claim C7: a display date that fails to parse against "%B %d, %Y" is
assigned the earliest possible key (`datetime.min`, the least value any date
string can receive) instead of raising, and the concrete scenario sorts as
"March 2, 2024", "March 1, 2024", "not-a-date". -/
theorem C7_sort_fallback :
    (∀ s : PyStr, parseDateOpt s = none → parse_date_key s = 10101) ∧
    (∀ s : PyStr, 10101 ≤ parse_date_key s) ∧
    sortPostsByDate [postMar1, postBadDate, postMar2]
      = [postMar2, postMar1, postBadDate] := by
  refine ⟨?_, parse_date_key_min, by decide⟩
  intro s h
  simp [parse_date_key, h]

/-- Witness for C7 at the unparsable date of the scenario. -/
theorem C7_sort_fallback_witness :
    parse_date_key (("not-a-date").data) = 10101 :=
  C7_sort_fallback.1 (("not-a-date").data) (by decide)

/-- Claim C8, counterexample: `str.replace` substitutes every occurrence of
'Z', not only a trailing one: on "Za" the code produces "+00:00a" while the
claimed trailing-only normalization leaves "Za" unchanged. -/
theorem C8_counterexample :
    normalizeTimestamp (("Za").data) = ("+00:00a").data ∧
      specNormalizeTimestamp (("Za").data) = ("Za").data ∧
      normalizeTimestamp (("Za").data) ≠ specNormalizeTimestamp (("Za").data) := by
  decide

/-- Claim C8 as amended: every occurrence of 'Z' in the timestamp string is
replaced by "+00:00" before parsing; when 'Z' occurs at most as the final
character (the well-formed ISO case) this coincides exactly with the claimed
trailing-only replacement; an absent timestamp falls back to the current
wall-clock time. -/
theorem C8_amended_timestamp :
    (∀ s : PyStr, 'Z' ∉ s.dropLast →
        normalizeTimestamp s = specNormalizeTimestamp s) ∧
    (∀ (parseIso : PyStr → Nat) (now : Nat), postDateOf parseIso now none = now) :=
  ⟨normalizeTimestamp_eq_spec_of_no_inner, fun _ _ => rfl⟩

/-- Witness for the amended C8 at a concrete ISO timestamp. -/
theorem C8_amended_timestamp_witness :
    normalizeTimestamp (("2024-03-01T10:00:00Z").data)
      = specNormalizeTimestamp (("2024-03-01T10:00:00Z").data) :=
  C8_amended_timestamp.1 (("2024-03-01T10:00:00Z").data) (by decide)

/-- Claim C9: for an eligible entry, absent optional fields never prevent
the record: it is built with the documented defaults ("Untitled", empty
content, empty URL) and its file is still written. -/
theorem C9_optional_defaults (e : Entry) (now : Nat) (parseIso : PyStr → Nat)
    (htype : e.postType = some (("POST").data))
    (hstatus : e.status = some (("LIVE").data))
    (hexc : should_exclude_post (collectLabels e.terms) = false) :
    ∃ p : Post, processEntry now parseIso e = some p ∧
      (e.title = none → p.title = ("Untitled").data) ∧
      (e.content = none → p.content = []) ∧
      (e.filename = none → p.url = []) ∧
      generate_filenames (parse_blogspot_xml now parseIso [e])
        = [clean_filename p.title ++ (".html").data] := by
  have hsome : processEntry now parseIso e = some {
      title := e.title.getD (("Untitled").data)
      date := postDateOf parseIso now e.published
      content := e.content.getD []
      labels := collectLabels e.terms
      url := match e.filename with
             | some f => if !f.isEmpty then blogHost ++ f else []
             | none => [] } := by
    unfold processEntry
    split_ifs with h1 h2
    · exact absurd htype h1
    · exact absurd hstatus h2
    · simp [hexc]
  refine ⟨_, hsome, ?_, ?_, ?_, ?_⟩
  · intro ht; simp [ht]
  · intro hct; simp [hct]
  · intro hf; simp [hf]
  · simp [parse_blogspot_xml, List.filterMap_cons, hsome, generate_filenames,
      List.insertionSort, List.orderedInsert]

/-- An eligible entry with every optional field absent. -/
def bareEntry : Entry :=
  { postType := some (("POST").data), status := some (("LIVE").data),
    terms := [], title := none, published := none, content := none,
    filename := none }

/-- Witness for C9 at a concrete all-defaults entry. -/
theorem C9_optional_defaults_witness :
    ∃ p : Post, processEntry 5 (fun _ => 0) bareEntry = some p ∧
      (bareEntry.title = none → p.title = ("Untitled").data) ∧
      (bareEntry.content = none → p.content = []) ∧
      (bareEntry.filename = none → p.url = []) ∧
      generate_filenames (parse_blogspot_xml 5 (fun _ => 0) [bareEntry])
        = [clean_filename p.title ++ (".html").data] :=
  C9_optional_defaults bareEntry 5 (fun _ => 0) (by decide) (by decide) (by decide)

/-- Claim C10: one application of the title cleanup removes exactly the
first leading bracketed segment: on any heading that stacks two bracketed
tags the second tag survives, on "[A][B] Title" a single application yields
"[B] Title", and applying the cleanup again changes the result once more
(the cleanup is not idempotent on stacked tags). -/
theorem C10_single_bracket_removal :
    (∀ (a b r : PyStr), ']' ∉ a → '\n' ∉ a →
       clean_title ('[' :: (a ++ ']' :: '[' :: (b ++ ']' :: r)))
         = pyStrip ('[' :: (b ++ ']' :: r))) ∧
    clean_title (("[A][B] Title").data) = ("[B] Title").data ∧
    clean_title (clean_title (("[A][B] Title").data))
      ≠ clean_title (("[A][B] Title").data) := by
  refine ⟨?_, by decide, by decide⟩
  intro a b r hna hnn
  have hsplit := splitFirst_single_notMem ']' ('[' :: (b ++ ']' :: r)) a hna
  have hsp : isPySpace '[' = false := rfl
  simp only [clean_title, if_pos rfl, hsplit, if_neg hnn, List.dropWhile_cons, hsp]
  simp

/-- Witness for C10 at the concrete stacked heading "[A][B] Title". -/
theorem C10_single_bracket_removal_witness :
    clean_title ('[' :: ((("A").data) ++ ']' :: '[' :: ((("B").data) ++ ']' :: ((" Title").data))))
      = pyStrip ('[' :: ((("B").data) ++ ']' :: ((" Title").data))) :=
  C10_single_bracket_removal.1 (("A").data) (("B").data) ((" Title").data)
    (by decide) (by decide)
